import Mathlib

/-!
Verification of the `unstuck` asynchronous runtime against its
natural-language specification.  The Python source is shallowly embedded:
pure functions become Lean functions, stateful classes become explicit
state-passing functions, machine integers are `Nat`/`Int`, fallible code
returns `Option`/`Except`.
-/

namespace Unstuck

/-! ## Async Queue (`src/queue.py`)

A `Future` created by the queue is modelled by a numeric identifier; the
queue state carries a log of resolutions `(futureId, value)` in the order
in which `setResult` calls happen (`none` models Python's `None`).
-/

/-- State of `Queue` from `src/queue.py`: `values` is the value deque
(head at the left), `getwaiters` holds ids of consumer futures,
`putwaiters` holds `(barrier id, value)` pairs, `length` is the capacity
argument (`-1` means unbounded).  `nextId` supplies fresh future ids and
`resolvedLog` records every `setResult` in order. -/
structure QState where
  values : List Int
  getwaiters : List Nat
  putwaiters : List (Nat × Int)
  length : Int
  nextId : Nat
  resolvedLog : List (Nat × Option Int)
  deriving Repr, DecidableEq

/-- Outcome of `Queue.put`: either the `doneFuture` (value delivered or
buffered) or a fresh pending barrier with the given id. -/
inductive PutRet where
  | done
  | pending (id : Nat)
  deriving Repr, DecidableEq

/-- Outcome of `Queue.get`: either a future already resolved with a value,
or a fresh pending future enqueued on `getwaiters`. -/
inductive GetRet where
  | value (id : Nat) (v : Int)
  | pending (id : Nat)
  deriving Repr, DecidableEq

/-- `Queue.put` from `src/queue.py`.  If a consumer waits, resolve its
future with the value; else if the buffer is below capacity, append; else
enqueue a fresh barrier on `putwaiters`. -/
def QState.put (s : QState) (value : Int) : QState × PutRet :=
  match s.getwaiters with
  | g :: rest =>
      ({ s with getwaiters := rest,
                resolvedLog := s.resolvedLog ++ [(g, some value)] }, .done)
  | [] =>
      if s.length > (s.values.length : Int) then
        ({ s with values := s.values ++ [value] }, .done)
      else
        let getBarrier := s.nextId
        ({ s with putwaiters := s.putwaiters ++ [(getBarrier, value)],
                  nextId := s.nextId + 1 }, .pending getBarrier)

/-- `Queue.get` from `src/queue.py`.  A fresh future `fut` is always
created first.  If a producer waits: with `length > 0` the buffer head is
popped into `myValue` and the producer's value pushed to the tail
(`none` on an empty buffer models the `IndexError` of `popleft`), with
unbounded length the producer's value is taken directly; the producer's
barrier is released (`setResult(None)`) first — and then the final
`fut.setResult(value)` resolves the consumer with `value`, the
*producer's* value: `myValue` is dead in the source (contrast
`XQueue.get`, which resolves with `myValue`).  Else pop the buffer, else
enqueue `fut`. -/
def QState.get (s : QState) : Option (QState × GetRet) :=
  let fut := s.nextId
  let s := { s with nextId := s.nextId + 1 }
  match s.putwaiters with
  | (getBarrier, value) :: prest =>
      if s.length > 0 then
        match s.values with
        | [] => none
        | myValue :: vrest =>
            some ({ s with putwaiters := prest,
                           values := vrest ++ [value],
                           resolvedLog := s.resolvedLog
                             ++ [(getBarrier, none), (fut, some value)] },
                  .value fut value)
      else
        some ({ s with putwaiters := prest,
                       resolvedLog := s.resolvedLog
                         ++ [(getBarrier, none), (fut, some value)] },
              .value fut value)
  | [] =>
      match s.values with
      | value :: vrest =>
          some ({ s with values := vrest,
                         resolvedLog := s.resolvedLog ++ [(fut, some value)] },
                .value fut value)
      | [] =>
          some ({ s with getwaiters := s.getwaiters ++ [fut] }, .pending fut)

/-- A fresh queue of the given capacity (`Queue.__init__`). -/
def QState.init (length : Int) : QState :=
  { values := [], getwaiters := [], putwaiters := [], length := length,
    nextId := 0, resolvedLog := [] }

/-- Whether a future id has been resolved in the log. -/
def QState.isResolved (s : QState) (id : Nat) : Bool :=
  s.resolvedLog.any (fun p => p.1 == id)

/-! ## WebSocket opcodes (`src/websockets/framing.py`) -/

def OP_CONT : Nat := 0
def OP_TEXT : Nat := 1
def OP_BINARY : Nat := 2
def OP_CLOSE : Nat := 8
def OP_PING : Nat := 9
def OP_PONG : Nat := 10

/-- `select.EPOLLERR | select.EPOLLHUP` (`errorCheckingMask` in
`src/events.py`). -/
def errorCheckingMask : Nat := 8 ||| 16

/-! ## `Websocket.__writeDataFrame` (`src/websockets/websocket.py`)

Modelled at the frame level: the sequence of `(opcode, payload, final)`
triples handed to `writeFragment`, for the `bytes` branch (the `str`
branch only differs in the first opcode).  The `while` loop is given fuel
(`data.length + 1` suffices whenever `maxSize > 0`); `none` models
divergence. -/

/-- Python slice `l[a:b]` for `0 ≤ a ≤ b`. -/
def pySlice (l : List Nat) (a b : Nat) : List Nat := (l.drop a).take (b - a)

/-- The `while len(data) > endFrag + self.maxSize` loop of
`__writeDataFrame`, including the source's assignment order
(`endFrag += maxSize` before `startFrag = endFrag`). -/
def writeDataLoop (fuel : Nat) (maxSize : Nat) (data : List Nat)
    (endFrag : Nat) : Option (List (Nat × List Nat × Bool)) :=
  match fuel with
  | 0 => none
  | fuel + 1 =>
      if data.length > endFrag + maxSize then
        let endFrag2 := endFrag + maxSize
        let startFrag := endFrag2
        match writeDataLoop fuel maxSize data endFrag2 with
        | some frames =>
            some ((OP_CONT, pySlice data startFrag endFrag2, false) :: frames)
        | none => none
      else some [(OP_CONT, data.drop endFrag, true)]

/-- `Websocket.__writeDataFrame` for a `bytes` payload: the frames
written to the socket, in order. -/
def writeDataFrame (maxSize : Nat) (opcode : Nat) (data : List Nat) :
    Option (List (Nat × List Nat × Bool)) :=
  if data.length > maxSize then
    match writeDataLoop (data.length + 1) maxSize data maxSize with
    | some frames => some ((opcode, data.take maxSize, false) :: frames)
    | none => none
  else some [(opcode, data, true)]

/-- **C2.** (code bug) A 10,000-byte binary message with
`max_size = 4096` is emitted as payloads of lengths 4096, **0**, 1808 —
not 4096, 4096, 1808 — because the loop assigns `startFrag = endFrag`
after already advancing `endFrag`, making every middle fragment the
empty slice `data[endFrag:endFrag]`; the concatenation of the emitted
payloads is missing bytes 4096..8191 and does not equal the message. -/
theorem writeDataFrame_drops_middle_bytes :
    writeDataFrame 4096 OP_BINARY (List.range 10000) = some
      [(OP_BINARY, (List.range 10000).take 4096, false),
       (OP_CONT, [], false),
       (OP_CONT, (List.range 10000).drop 8192, true)] ∧
    ((List.range 10000).take 4096 ++ ([] : List Nat)
      ++ (List.range 10000).drop 8192).length = 5904 ∧
    (List.range 10000).take 4096 ++ ([] : List Nat)
      ++ (List.range 10000).drop 8192 ≠ List.range 10000 := by
  have hsucc : ∀ (fuel maxSize : Nat) (data : List Nat) (endFrag : Nat),
      writeDataLoop (fuel + 1) maxSize data endFrag =
        if data.length > endFrag + maxSize then
          match writeDataLoop fuel maxSize data (endFrag + maxSize) with
          | some frames =>
              some ((OP_CONT,
                pySlice data (endFrag + maxSize) (endFrag + maxSize), false)
                :: frames)
          | none => none
        else some [(OP_CONT, data.drop endFrag, true)] :=
    fun _ _ _ _ => rfl
  have hA : writeDataLoop 10000 4096 (List.range 10000) 8192
      = some [(OP_CONT, (List.range 10000).drop 8192, true)] := by
    rw [show (10000 : Nat) = 9999 + 1 by norm_num, hsucc]
    rw [if_neg]
    simp [List.length_range]
  have hB : writeDataLoop 10001 4096 (List.range 10000) 4096
      = some ((OP_CONT, [], false)
          :: [(OP_CONT, (List.range 10000).drop 8192, true)]) := by
    rw [show (10001 : Nat) = 10000 + 1 by norm_num, hsucc]
    rw [if_pos]
    · rw [show (4096 : Nat) + 4096 = 8192 by norm_num, hA]
      simp [pySlice]
    · simp [List.length_range]
  refine ⟨?_, ?_, ?_⟩
  · simp only [writeDataFrame, List.length_range]
    rw [if_pos (by norm_num), show (10000 : Nat) + 1 = 10001 by norm_num, hB]
  · simp [List.length_range]
  · intro h
    have := congrArg List.length h
    simp [List.length_range] at this

/-! ## Write Wrapper (`src/streams.py` `WriteWrapper`)

Buffers are byte lists, futures are ids.  The OS `fileObject.write`
results are supplied as an oracle list (`some n` = `n` bytes accepted,
`none` = the write raised); `flushOk` says whether `flush` raises. -/

/-- The mutable fields of `WriteWrapper` that `__handleWriteFrom`
touches: the waiter deque `(fut, remaining bytes, original length)`, the
pending total (`Int`: the Python int may go negative), whether the
EPOLLOUT handler is registered, and whether a closing barrier exists. -/
structure WWState where
  writeWaiters : List (Nat × List Nat × Nat)
  writeWaitingSize : Int
  registeredWriter : Bool
  writeClosing : Option Bool
  deriving Repr, DecidableEq

/-- Sum of the remaining byte counts of all queued write waiters. -/
def sumRemaining (w : List (Nat × List Nat × Nat)) : Nat :=
  (w.map (fun t => t.2.1.length)).sum

/-- Exit of the `while self.writeWaitingSize > 0` drain loop: normal
exit or exception, each with the waiters, pending total and `doneIndex`
at that point; `stuck` covers an exhausted oracle or an out-of-range
`writeWaiters[doneIndex]` (unreachable in the runs considered). -/
inductive LoopExit where
  | ok (w : List (Nat × List Nat × Nat)) (size : Int) (doneIndex : Nat)
  | exc (w : List (Nat × List Nat × Nat)) (size : Int) (doneIndex : Nat)
  | stuck
  deriving Repr, DecidableEq

/-- The drain loop of `__handleWriteFrom`. -/
def drainW (resps : List (Option Nat)) (waiters : List (Nat × List Nat × Nat))
    (size : Int) (doneIndex : Nat) : LoopExit :=
  if size > 0 then
    match waiters.get? doneIndex with
    | none => .stuck
    | some (fut, writeBytes, totalLength) =>
        match resps with
        | [] => .stuck
        | resp :: rrest =>
            match resp with
            | none => .exc waiters size doneIndex
            | some dataSize =>
                let size2 := size - (dataSize : Int)
                if dataSize < writeBytes.length then
                  .ok (waiters.set doneIndex
                        (fut, writeBytes.drop dataSize, totalLength))
                      size2 doneIndex
                else drainW rrest waiters size2 (doneIndex + 1)
  else .ok waiters size doneIndex
termination_by structural resps

/-- The `except Exception` handler of `__handleWriteFrom`: subtract the
length of `writeWaiters[0]`'s buffer, then pop and fail `doneIndex + 1`
waiters (popping an empty deque raises `IndexError`, modelled `none`). -/
def wwExceptHandler (waiters : List (Nat × List Nat × Nat)) (size : Int)
    (doneIndex : Nat) : Option (List (Nat × List Nat × Nat) × Int × List Nat) :=
  match waiters with
  | [] => some (waiters, size, [])
  | (_, data, _) :: _ =>
      if doneIndex + 1 ≤ waiters.length then
        some (waiters.drop (doneIndex + 1), size - (data.length : Int),
              (waiters.take (doneIndex + 1)).map (fun t => t.1))
      else none

/-- `WriteWrapper.__handleWriteFrom`.  Returns the new state, the futures
resolved with their lengths, and the futures failed; `none` is an
exception escaping the handler itself. -/
def handleWriteFrom (s : WWState) (mask : Nat) (resps : List (Option Nat))
    (flushOk : Bool) : Option (WWState × List (Nat × Nat) × List Nat) :=
  let oldWriteWaitingSize := s.writeWaitingSize
  let afterTry :
      Option ((List (Nat × List Nat × Nat) × Int × List (Nat × Nat))
              ⊕ (List (Nat × List Nat × Nat) × Int × Nat)) :=
    if mask &&& errorCheckingMask ≠ 0 then
      some (.inr (s.writeWaiters, s.writeWaitingSize, 0))
    else
      match drainW resps s.writeWaiters s.writeWaitingSize 0 with
      | .stuck => none
      | .exc w size doneIndex => some (.inr (w, size, doneIndex))
      | .ok w size doneIndex =>
          if flushOk then
            -- pop doneIndex waiters, resolving each with its total length
            if doneIndex ≤ w.length then
              some (.inl (w.drop doneIndex, size,
                (w.take doneIndex).map (fun t => (t.1, t.2.2))))
            else none
          else some (.inr (w, size, doneIndex))
  match afterTry with
  | none => none
  | some out =>
      let next :
          Option (List (Nat × List Nat × Nat) × Int × List (Nat × Nat)
                  × List Nat) :=
        match out with
        | .inl (w, size, resolved) => some (w, size, resolved, [])
        | .inr (w, size, doneIndex) =>
            match wwExceptHandler w size doneIndex with
            | some (w2, size2, failed) => some (w2, size2, [], failed)
            | none => none
      match next with
      | none => none
      | some (w, size, resolved, failed) =>
          some ({ s with writeWaiters := w, writeWaitingSize := size,
                         registeredWriter :=
                           if size = 0 ∧ oldWriteWaitingSize > 0 then false
                           else s.registeredWriter },
                resolved, failed)

/-- **C5.** (code bug) After a writable-readiness callback that fails
partway through its drain, the pending-total no longer equals the sum of
remaining waiter bytes: with waiters of 3 and 5 bytes, a first OS write
accepting all 3 bytes and a second that raises, the handler subtracts
`writeWaiters[0]`'s already-accounted length a second time, pops both
waiters, and leaves `writeWaitingSize = 2` with an empty waiter queue
(sum of remaining = 0) — and the EPOLLOUT registration is left armed. -/
theorem write_wrapper_pending_total_mismatch :
    handleWriteFrom
        { writeWaiters := [(1, [10, 11, 12], 3), (2, [20, 21, 22, 23, 24], 5)],
          writeWaitingSize := 8, registeredWriter := true,
          writeClosing := none }
        4 [some 3, none] true = some
      ({ writeWaiters := [], writeWaitingSize := 2, registeredWriter := true,
         writeClosing := none }, [], [1, 2]) ∧
    ((0 : Int) ≠ 2) ∧
    (sumRemaining [] : Int) ≠ (2 : Int) := by
  refine ⟨rfl, by decide, by decide⟩

/-! ## EventQueue retry path (`src/aux.py` `EventQueue.__handle`)

`collections.deque` exposes `appendleft`, not `pushleft`; attribute
lookup on the deque is modelled against the actual deque method list. -/

/-- The attributes of `collections.deque`. -/
def dequeMethods : List String :=
  ["append", "appendleft", "clear", "copy", "count", "extend",
   "extendleft", "index", "insert", "maxlen", "pop", "popleft",
   "remove", "reverse", "rotate"]

/-- Outcome of the `innerHandle` call inside `EventQueue.__handle`. -/
inductive InnerOutcome where
  | result (v : Int)
  | abort
  | failure (e : Nat)
  deriving Repr, DecidableEq

/-- State of an `EventQueue`: pending `get` futures, closing flag,
whether the close barrier has been released, and whether the
`(fd, mask)` registration with the dispatcher is active. -/
structure EQState where
  queue : List Nat
  closing : Bool
  closeBarrierDone : Bool
  registered : Bool
  deriving Repr, DecidableEq

/-- `EventQueue.__handle`: pop the head future, run the inner handle; on
`IOEventAbort` the source calls `self.queue.pushleft(fut)` — resolved
against `dequeMethods` (an absent attribute raises `AttributeError`,
whose carried state shows the mutations made so far).  Otherwise the
future is resolved/failed and an emptied queue releases the close
barrier (when closing) and unregisters the file event. -/
def eventQueueHandle (s : EQState) (outcome : InnerOutcome) :
    Except (String × EQState) (EQState × List (Nat × Option (Option Int))) :=
  match s.queue with
  | [] => .error ("IndexError", s)
  | fut :: rest =>
      let s1 := { s with queue := rest }
      match outcome with
      | .abort =>
          if "pushleft" ∈ dequeMethods then .ok ({ s1 with queue := fut :: rest }, [])
          else .error ("AttributeError", s1)
      | .result v =>
          let eff := [(fut, some (some v))]
          if rest = [] then
            .ok ({ s1 with closeBarrierDone := s1.closing || s1.closeBarrierDone, registered := false }, eff)
          else .ok (s1, eff)
      | .failure _ =>
          let eff := [(fut, some none)]
          if rest = [] then
            .ok ({ s1 with closeBarrierDone := s1.closing || s1.closeBarrierDone, registered := false }, eff)
          else .ok (s1, eff)

/-- **C8.** (code bug) On a retry signal (`IOEventAbort`) the head cell
is *not* returned to the queue: `deque` has no `pushleft` attribute, so
the handler raises `AttributeError` after having popped the cell — the
cell is lost from the queue (though never resolved) and the error
escapes; the FD registration survives only incidentally. -/
theorem event_queue_retry_loses_cell :
    ("pushleft" ∈ dequeMethods) = False ∧
    eventQueueHandle
        { queue := [5], closing := false, closeBarrierDone := false,
          registered := true } .abort =
      .error ("AttributeError",
        { queue := [], closing := false, closeBarrierDone := false,
          registered := true }) := by
  refine ⟨by decide, rfl⟩

/-! ## Ping handling (`src/websockets/websocket.py` `__readNextFrame`)

Attribute lookup on a `Websocket` instance resolves against the
attributes assigned in `__init__` and the methods defined by the class
body (private names mangled as Python does). -/

/-- The attributes available on a `Websocket` instance. -/
def websocketAttrs : List String :=
  ["socket", "closingData", "pings", "dataFrameQueue", "receiveMask",
   "sendMask", "maxSize", "state", "mainLoopThread", "curWait",
   "recv", "send", "close",
   "_Websocket__mainLoop", "_Websocket__readNextFrame",
   "_Websocket__writeCloseFrame", "_Websocket__writeDataFrame",
   "_Websocket__failConnection", "_Websocket__sendClose",
   "_Websocket__closeTimeout"]

/-- The `opcode == OP_PING` branch of `__readNextFrame`: the source runs
`yield from self.writePongFrame(data)` then returns `(RECV_PING, None)`;
the attribute access is resolved against `websocketAttrs`. -/
def readNextFrameOnPing (data : List Nat) :
    Except String (Nat × Option (List Nat)) :=
  if "writePongFrame" ∈ websocketAttrs then
    -- were the method present, a pong frame with payload `data` would be
    -- written and the frame reported as a PING with no data delivered
    .ok (4, none)
  else .error "AttributeError"

/-! ## Frame codec (`src/websockets/framing.py`)

Byte streams are `List Nat` with every element `< 256`.  `struct.pack`
of `!H`/`!Q` is big-endian encoding (`encodeBE`), `struct.unpack` is
`decodeBE`.  `socket.recv(n)` consumes exactly `n` bytes of the stream
(`recvN`); a short stream is a transport error.  The random 32-bit mask
key of `writeFragment` is passed in as `maskBits`. -/

/-- Big-endian encoding of `n` into `k` bytes (`struct.pack`). -/
def encodeBE (k : Nat) (n : Nat) : List Nat :=
  match k with
  | 0 => []
  | k + 1 => encodeBE k (n / 256) ++ [n % 256]

/-- Big-endian decoding (`struct.unpack`). -/
def decodeBE (l : List Nat) : Nat :=
  l.foldl (fun a b => a * 256 + b) 0

/-- The header bit masks of `src/websockets/framing.py`. -/
def WSHEAD_FIN_BIT : Nat := 32768
def WSHEAD_RES_BITS : Nat := 28672
def WSHEAD_OP_BITS : Nat := 3840
def WSHEAD_MASK_BIT : Nat := 128
def WSHEAD_LEN_BITS : Nat := 127

/-- `applyMaskSlow` with an explicit running index:
`b ^ maskBits[i & 3]` for each byte. -/
def applyMaskAux (maskBits : List Nat) (i : Nat) : List Nat → List Nat
  | [] => []
  | b :: rest => (b ^^^ maskBits.getD (i &&& 3) 0) :: applyMaskAux maskBits (i + 1) rest

/-- `applyMask(maskBits, data)` (the slow and fast variants agree). -/
def applyMask (maskBits : List Nat) (data : List Nat) : List Nat :=
  applyMaskAux maskBits 0 data

/-- `socket.recv(n)` against a byte stream: exactly `n` bytes or a
transport error. -/
def recvN (n : Nat) (s : List Nat) : Except String (List Nat × List Nat) :=
  if n ≤ s.length then .ok (s.take n, s.drop n)
  else .error "recv: stream interrupted"

/-- The `length > maxSize` test with `none` modelling the `inf`
default. -/
def maxSizeExceeded (length : Nat) (maxSize : Option Nat) : Bool :=
  match maxSize with
  | some m => length > m
  | none => false

/-- `readFragment(socket, mask, maxSize)` from
`src/websockets/framing.py`, as a parser on the byte stream: returns
`(opcode, payload, final)` and the unconsumed remainder. -/
def readFragment (mask : Bool) (maxSize : Option Nat) (s : List Nat) :
    Except String ((Nat × List Nat × Bool) × List Nat) :=
  match recvN 2 s with
  | .error e => .error e
  | .ok (d, s1) =>
      let head := decodeBE d
      let finalFragment : Bool := decide (head &&& WSHEAD_FIN_BIT ≠ 0)
      if head &&& WSHEAD_RES_BITS ≠ 0 then .error "Reserved bits must be 0"
      else
        let opcode := (head &&& WSHEAD_OP_BITS) >>> 8
        if (decide (head &&& WSHEAD_MASK_BIT ≠ 0)) ≠ mask then
          .error "Incorrect masking"
        else
          let length0 := head &&& WSHEAD_LEN_BITS
          let lenResult : Except String (Nat × List Nat) :=
            if length0 = 126 then
              match recvN 2 s1 with
              | .error e => .error e
              | .ok (d2, s2) => .ok (decodeBE d2, s2)
            else if length0 = 127 then
              match recvN 8 s1 with
              | .error e => .error e
              | .ok (d2, s2) => .ok (decodeBE d2, s2)
            else .ok (length0, s1)
          match lenResult with
          | .error e => .error e
          | .ok (length, s2) =>
              if maxSizeExceeded length maxSize then
                .error "Payload exceeds limit"
              else
                let maskRes : Except String (List Nat × List Nat) :=
                  if mask then recvN 4 s2 else .ok ([], s2)
                match maskRes with
                | .error e => .error e
                | .ok (maskBits, s3) =>
                    match recvN length s3 with
                    | .error e => .error e
                    | .ok (rawData, s4) =>
                        let data :=
                          if mask then applyMask maskBits rawData else rawData
                        if opcode = OP_CLOSE ∨ opcode = OP_PING
                            ∨ opcode = OP_PONG then
                          if data.length > 125 then
                            .error "Control frame too long"
                          else if finalFragment = false then
                            .error "Fragmented control frame"
                          else .ok ((opcode, data, finalFragment), s4)
                        else if opcode = OP_CONT ∨ opcode = OP_TEXT
                            ∨ opcode = OP_BINARY then
                          .ok ((opcode, data, finalFragment), s4)
                        else .error "Invalid opcode"

/-- `writeFragment(socket, mask, opcode, data, final)`: the bytes sent
(`struct.pack("!Q")` requires `len(data) < 2^64`, assumed by every
caller below). -/
def writeFragment (mask : Bool) (maskBits : List Nat) (opcode : Nat)
    (data : List Nat) (final : Bool) : List Nat :=
  let length := data.length
  let head1 := (if final then 128 else 0) ||| opcode
  let head2 : Nat := if mask then 128 else 0
  let header :=
    if length < 126 then [head1, head2 ||| length]
    else if length < 65536 then [head1, head2 ||| 126] ++ encodeBE 2 length
    else [head1, head2 ||| 127] ++ encodeBE 8 length
  let header2 := if mask then header ++ maskBits else header
  let payload := if mask then applyMask maskBits data else data
  header2 ++ payload

theorem encodeBE_length (k n : Nat) : (encodeBE k n).length = k := by
  induction k generalizing n with
  | zero => rfl
  | succ k ih => simp [encodeBE, ih]

theorem encodeBE_bytes (k n : Nat) : ∀ b ∈ encodeBE k n, b < 256 := by
  induction k generalizing n with
  | zero => simp [encodeBE]
  | succ k ih =>
      intro b hb
      simp only [encodeBE, List.mem_append, List.mem_singleton] at hb
      rcases hb with hb | rfl
      · exact ih _ b hb
      · exact Nat.mod_lt _ (by norm_num)

theorem decodeBE_encodeBE_aux (k n acc : Nat) (h : n < 256 ^ k) :
    (encodeBE k n).foldl (fun a b => a * 256 + b) acc = acc * 256 ^ k + n := by
  induction k generalizing n acc with
  | zero =>
      simp only [Nat.pow_zero, Nat.lt_one_iff] at h
      simp [encodeBE, h]
  | succ k ih =>
      have hdiv : n / 256 < 256 ^ k := by
        rw [Nat.div_lt_iff_lt_mul (by norm_num : 0 < 256)]
        calc n < 256 ^ (k + 1) := h
        _ = 256 ^ k * 256 := by ring
      simp only [encodeBE, List.foldl_append, List.foldl_cons, List.foldl_nil,
        ih (n / 256) acc hdiv]
      calc (acc * 256 ^ k + n / 256) * 256 + n % 256
          = acc * (256 ^ k * 256) + (256 * (n / 256) + n % 256) := by ring
      _ = acc * 256 ^ (k + 1) + n := by rw [Nat.div_add_mod]; ring

theorem decodeBE_encodeBE (k n : Nat) (h : n < 256 ^ k) :
    decodeBE (encodeBE k n) = n := by
  unfold decodeBE
  rw [decodeBE_encodeBE_aux k n 0 h]
  ring

theorem applyMaskAux_length (mb : List Nat) (i : Nat) (d : List Nat) :
    (applyMaskAux mb i d).length = d.length := by
  induction d generalizing i with
  | nil => rfl
  | cons b rest ih => simp [applyMaskAux, ih]

theorem applyMaskAux_involution (mb : List Nat) (i : Nat) (d : List Nat) :
    applyMaskAux mb i (applyMaskAux mb i d) = d := by
  induction d generalizing i with
  | nil => rfl
  | cons b rest ih =>
      simp [applyMaskAux, ih, Nat.xor_cancel_right]

/-- Masking is an involution: unmasking with the same key restores the
payload. -/
theorem applyMask_involution (mb d : List Nat) :
    applyMask mb (applyMask mb d) = d :=
  applyMaskAux_involution mb 0 d

theorem getD_lt (mb : List Nat) (h : ∀ b ∈ mb, b < 256) (j : Nat) :
    mb.getD j 0 < 256 := by
  induction mb generalizing j with
  | nil => simp [List.getD]
  | cons x rest ih =>
      cases j with
      | zero => exact h x (by simp)
      | succ j =>
          simpa [List.getD] using ih (fun b hb => h b (by simp [hb])) j

theorem applyMaskAux_bytes (mb : List Nat) (i : Nat) (d : List Nat)
    (hmb : ∀ b ∈ mb, b < 256) (hd : ∀ b ∈ d, b < 256) :
    ∀ b ∈ applyMaskAux mb i d, b < 256 := by
  induction d generalizing i with
  | nil => simp [applyMaskAux]
  | cons x rest ih =>
      intro b hb
      simp only [applyMaskAux, List.mem_cons] at hb
      rcases hb with rfl | hb
      · have h256 : (2 : Nat) ^ 8 = 256 := by norm_num
        have hx : x < 2 ^ 8 := by rw [h256]; exact hd x (by simp)
        have hm : mb.getD (i &&& 3) 0 < 2 ^ 8 := by
          rw [h256]; exact getD_lt mb hmb (i &&& 3)
        have hxor := Nat.xor_lt_two_pow hx hm
        rw [h256] at hxor
        exact hxor
      · exact ih (i + 1) (fun b hb => hd b (by simp [hb])) b hb

theorem recvN_exact (n : Nat) (l r : List Nat) (h : l.length = n) :
    recvN n (l ++ r) = .ok (l, r) := by
  subst h
  rw [recvN, if_pos (by simp), List.take_left, List.drop_left]

theorem and_digits (a b c d : Nat) (hb : b < 256) (hd : d < 256) :
    (a * 256 + b) &&& (c * 256 + d) = (a &&& c) * 256 + (b &&& d) := by
  have hb8 : b < 2 ^ 8 := by norm_num at hb ⊢; exact hb
  have hd8 : d < 2 ^ 8 := by norm_num at hd ⊢; exact hd
  have hbd8 : b &&& d < 2 ^ 8 := Nat.and_lt_two_pow b hd8
  have e1 : a * 256 + b = 2 ^ 8 * a + b := by ring
  have e2 : c * 256 + d = 2 ^ 8 * c + d := by ring
  have e3 : (a &&& c) * 256 + (b &&& d) = 2 ^ 8 * (a &&& c) + (b &&& d) := by
    ring
  rw [e1, e2, e3]
  apply Nat.eq_of_testBit_eq
  intro i
  rw [Nat.testBit_and, Nat.testBit_mul_pow_two_add _ hb8,
    Nat.testBit_mul_pow_two_add _ hd8, Nat.testBit_mul_pow_two_add _ hbd8]
  by_cases hi : i < 8 <;> simp [hi, Nat.testBit_and]

theorem mul256_shift (x : Nat) : (x * 256) >>> 8 = x := by
  rw [Nat.shiftRight_eq_div_pow]
  norm_num

/-- The five header-field extractions of `readFragment` on a two-byte
header `head1 * 256 + b1`. -/
theorem head_bits (head1 b1 : Nat) (hb : b1 < 256) :
    (head1 * 256 + b1) &&& WSHEAD_FIN_BIT = (head1 &&& 128) * 256 ∧
    (head1 * 256 + b1) &&& WSHEAD_RES_BITS = (head1 &&& 112) * 256 ∧
    ((head1 * 256 + b1) &&& WSHEAD_OP_BITS) >>> 8 = head1 &&& 15 ∧
    (head1 * 256 + b1) &&& WSHEAD_MASK_BIT = b1 &&& 128 ∧
    (head1 * 256 + b1) &&& WSHEAD_LEN_BITS = b1 &&& 127 := by
  refine ⟨?_, ?_, ?_, ?_, ?_⟩
  · rw [WSHEAD_FIN_BIT, show (32768 : Nat) = 128 * 256 + 0 by norm_num,
      and_digits head1 b1 128 0 hb (by norm_num)]
    simp
  · rw [WSHEAD_RES_BITS, show (28672 : Nat) = 112 * 256 + 0 by norm_num,
      and_digits head1 b1 112 0 hb (by norm_num)]
    simp
  · rw [WSHEAD_OP_BITS, show (3840 : Nat) = 15 * 256 + 0 by norm_num,
      and_digits head1 b1 15 0 hb (by norm_num)]
    simp [mul256_shift]
  · rw [WSHEAD_MASK_BIT, show (128 : Nat) = 0 * 256 + 128 by norm_num,
      and_digits head1 b1 0 128 hb (by norm_num)]
    simp
  · rw [WSHEAD_LEN_BITS, show (127 : Nat) = 0 * 256 + 127 by norm_num,
      and_digits head1 b1 0 127 hb (by norm_num)]
    simp

theorem head1_facts :
    ∀ op < 16, (128 ||| op) &&& 128 = 128 ∧ (128 ||| op) &&& 112 = 0 ∧
      (128 ||| op) &&& 15 = op ∧ 128 ||| op < 256 ∧
      op &&& 128 = 0 ∧ op &&& 112 = 0 ∧ op &&& 15 = op := by decide

theorem b1_facts :
    ∀ n < 128, (128 ||| n) &&& 128 = 128 ∧ (128 ||| n) &&& 127 = n ∧
      128 ||| n < 256 ∧ n &&& 128 = 0 ∧ n &&& 127 = n := by decide

theorem recvN_two (a b : Nat) (r : List Nat) :
    recvN 2 (a :: b :: r) = .ok ([a, b], r) := by
  simpa using recvN_exact 2 [a, b] r rfl

theorem recvN_all (l : List Nat) : recvN l.length l = .ok (l, []) := by
  simpa using recvN_exact l.length l [] rfl

theorem decodeBE_two (a b : Nat) : decodeBE [a, b] = a * 256 + b := by
  simp [decodeBE]

theorem applyMask_length (mb d : List Nat) :
    (applyMask mb d).length = d.length :=
  applyMaskAux_length mb 0 d

theorem maxSize_ok (length : Nat) (maxSize : Option Nat)
    (h : ∀ m, maxSize = some m → length ≤ m) :
    maxSizeExceeded length maxSize = false := by
  cases maxSize with
  | none => rfl
  | some m =>
      simp only [maxSizeExceeded, gt_iff_lt, decide_eq_false_iff_not,
        Nat.not_lt]
      exact h m rfl

/-- **C4.** Decoding the bytes produced by the frame writer (same mask
setting, same mask key) yields exactly the original
`(opcode, payload, final)` for every valid frame: data opcodes of any
length expressible in the length encoding, control opcodes with payload
at most 125 bytes and `final = true`; and in particular masking is an
involution and the 7-bit / 126+u16 / 127+u64 length encodings
round-trip. -/
theorem frame_encode_decode_roundtrip
    (opcode : Nat) (data : List Nat) (final mask : Bool)
    (maskBits : List Nat) (maxSize : Option Nat)
    (hop : opcode = OP_CONT ∨ opcode = OP_TEXT ∨ opcode = OP_BINARY
      ∨ opcode = OP_CLOSE ∨ opcode = OP_PING ∨ opcode = OP_PONG)
    (hctl : 8 ≤ opcode → data.length ≤ 125 ∧ final = true)
    (hlen : data.length < 2 ^ 64)
    (hdata : ∀ b ∈ data, b < 256)
    (hmb4 : mask = true → maskBits.length = 4)
    (hmbb : ∀ b ∈ maskBits, b < 256)
    (hmax : ∀ m, maxSize = some m → data.length ≤ m) :
    readFragment mask maxSize (writeFragment mask maskBits opcode data final)
      = .ok ((opcode, data, final), []) ∧
    (∀ mb d : List Nat, applyMask mb (applyMask mb d) = d) ∧
    (∀ n : Nat, n < 65536 → decodeBE (encodeBE 2 n) = n) ∧
    (∀ n : Nat, n < 2 ^ 64 → decodeBE (encodeBE 8 n) = n) := by
  refine ⟨?_, applyMask_involution, ?_, ?_⟩
  case refine_2 =>
    intro n hn
    exact decodeBE_encodeBE 2 n (by norm_num; omega)
  case refine_3 =>
    intro n hn
    exact decodeBE_encodeBE 8 n (by norm_num; omega)
  have hop16 : opcode < 16 := by
    rcases hop with rfl | rfl | rfl | rfl | rfl | rfl <;> decide
  obtain ⟨f1, f2, f3, f4, f5, f6, f7⟩ := head1_facts opcode hop16
  have g1 : (126 : Nat) &&& 128 = 0 := by decide
  have g2 : (126 : Nat) &&& 127 = 126 := by decide
  have g3 : (127 : Nat) &&& 128 = 0 := by decide
  have g4 : (127 : Nat) &&& 127 = 127 := by decide
  have g5 : (128 ||| 126 : Nat) &&& 128 = 128 := by decide
  have g6 : (128 ||| 126 : Nat) &&& 127 = 126 := by decide
  have g7 : (128 ||| 127 : Nat) &&& 128 = 128 := by decide
  have g8 : (128 ||| 127 : Nat) &&& 127 = 127 := by decide
  have hms := maxSize_ok data.length maxSize hmax
  cases final with
  | true =>
      cases mask with
      | false =>
          by_cases hl1 : data.length < 126
          · have hw : writeFragment false maskBits opcode data true
                = (128 ||| opcode) :: data.length :: data := by
              simp [writeFragment, hl1]
            obtain ⟨hFIN, hRES, hOP, hMASK, hLEN⟩ :=
              head_bits (128 ||| opcode) data.length (by omega)
            obtain ⟨_, _, _, hb128, hb127⟩ := b1_facts data.length (by omega)
            have hne126 : data.length ≠ 126 := by omega
            have hne127 : data.length ≠ 127 := by omega
            rw [hw]
            simp only [readFragment, recvN_two, decodeBE_two,
              hFIN, hRES, hOP, hMASK, hLEN, f1, f2, f3, hb128, hb127,
              hne126, hne127, hms, recvN_all]
            rcases hop with rfl | rfl | rfl | rfl | rfl | rfl <;>
              simp_all [OP_CONT, OP_TEXT, OP_BINARY, OP_CLOSE, OP_PING,
                OP_PONG, recvN_all]
          · by_cases hl2 : data.length < 65536
            · have hw : writeFragment false maskBits opcode data true
                  = (128 ||| opcode) :: 126
                    :: (encodeBE 2 data.length ++ data) := by
                simp [writeFragment, hl1, hl2]
              obtain ⟨hFIN, hRES, hOP, hMASK, hLEN⟩ :=
                head_bits (128 ||| opcode) 126 (by norm_num)
              have hrecv : recvN 2 (encodeBE 2 data.length ++ data)
                  = .ok (encodeBE 2 data.length, data) :=
                recvN_exact 2 _ data (encodeBE_length 2 _)
              have hdec : decodeBE (encodeBE 2 data.length) = data.length :=
                decodeBE_encodeBE 2 _ (by norm_num; omega)
              rw [hw]
              simp only [readFragment, recvN_two, decodeBE_two,
                hFIN, hRES, hOP, hMASK, hLEN, f1, f2, f3, hrecv, hdec, hms,
                recvN_all]
              rcases hop with rfl | rfl | rfl | rfl | rfl | rfl <;>
                simp_all [OP_CONT, OP_TEXT, OP_BINARY, OP_CLOSE, OP_PING,
                  OP_PONG, recvN_all]
            · have hw : writeFragment false maskBits opcode data true
                  = (128 ||| opcode) :: 127
                    :: (encodeBE 8 data.length ++ data) := by
                simp [writeFragment, hl1, hl2]
              obtain ⟨hFIN, hRES, hOP, hMASK, hLEN⟩ :=
                head_bits (128 ||| opcode) 127 (by norm_num)
              have hrecv : recvN 8 (encodeBE 8 data.length ++ data)
                  = .ok (encodeBE 8 data.length, data) :=
                recvN_exact 8 _ data (encodeBE_length 8 _)
              have hdec : decodeBE (encodeBE 8 data.length) = data.length :=
                decodeBE_encodeBE 8 _ (by norm_num; omega)
              rw [hw]
              simp only [readFragment, recvN_two, decodeBE_two,
                hFIN, hRES, hOP, hMASK, hLEN, f1, f2, f3, hrecv, hdec, hms,
                recvN_all]
              rcases hop with rfl | rfl | rfl | rfl | rfl | rfl <;>
                simp_all [OP_CONT, OP_TEXT, OP_BINARY, OP_CLOSE, OP_PING,
                  OP_PONG, recvN_all]
      | true =>
          have hrecv4 : recvN 4 (maskBits ++ applyMask maskBits data)
              = .ok (maskBits, applyMask maskBits data) :=
            recvN_exact 4 _ _ (hmb4 rfl)
          have hrecvd : recvN data.length (applyMask maskBits data)
              = .ok (applyMask maskBits data, []) := by
            rw [← applyMask_length maskBits data]
            exact recvN_all _
          by_cases hl1 : data.length < 126
          · have hw : writeFragment true maskBits opcode data true
                = (128 ||| opcode) :: (128 ||| data.length)
                  :: (maskBits ++ applyMask maskBits data) := by
              simp [writeFragment, hl1]
            obtain ⟨hm128, hm127, hmlt, _, _⟩ := b1_facts data.length (by omega)
            obtain ⟨hFIN, hRES, hOP, hMASK, hLEN⟩ :=
              head_bits (128 ||| opcode) (128 ||| data.length) hmlt
            have hne126 : data.length ≠ 126 := by omega
            have hne127 : data.length ≠ 127 := by omega
            rw [hw]
            simp only [readFragment, recvN_two, decodeBE_two,
              hFIN, hRES, hOP, hMASK, hLEN, f1, f2, f3, hm128, hm127,
              hne126, hne127, hms, hrecv4, hrecvd]
            rcases hop with rfl | rfl | rfl | rfl | rfl | rfl <;>
              simp_all [OP_CONT, OP_TEXT, OP_BINARY, OP_CLOSE, OP_PING,
                OP_PONG, applyMask_involution, applyMask_length]
          · by_cases hl2 : data.length < 65536
            · have hw : writeFragment true maskBits opcode data true
                  = (128 ||| opcode) :: (128 ||| 126)
                    :: (encodeBE 2 data.length
                        ++ (maskBits ++ applyMask maskBits data)) := by
                simp [writeFragment, hl1, hl2]
              obtain ⟨hFIN, hRES, hOP, hMASK, hLEN⟩ :=
                head_bits (128 ||| opcode) (128 ||| 126) (by decide)
              have hrecv : recvN 2
                    (encodeBE 2 data.length
                      ++ (maskBits ++ applyMask maskBits data))
                  = .ok (encodeBE 2 data.length,
                         maskBits ++ applyMask maskBits data) :=
                recvN_exact 2 _ _ (encodeBE_length 2 _)
              have hdec : decodeBE (encodeBE 2 data.length) = data.length :=
                decodeBE_encodeBE 2 _ (by norm_num; omega)
              rw [hw]
              simp only [readFragment, recvN_two, decodeBE_two,
                hFIN, hRES, hOP, hMASK, hLEN, f1, f2, f3, hrecv, hdec, hms,
                hrecv4, hrecvd]
              rcases hop with rfl | rfl | rfl | rfl | rfl | rfl <;>
                simp_all [OP_CONT, OP_TEXT, OP_BINARY, OP_CLOSE, OP_PING,
                  OP_PONG, applyMask_involution, applyMask_length]
            · have hw : writeFragment true maskBits opcode data true
                  = (128 ||| opcode) :: (128 ||| 127)
                    :: (encodeBE 8 data.length
                        ++ (maskBits ++ applyMask maskBits data)) := by
                simp [writeFragment, hl1, hl2]
              obtain ⟨hFIN, hRES, hOP, hMASK, hLEN⟩ :=
                head_bits (128 ||| opcode) (128 ||| 127) (by decide)
              have hrecv : recvN 8
                    (encodeBE 8 data.length
                      ++ (maskBits ++ applyMask maskBits data))
                  = .ok (encodeBE 8 data.length,
                         maskBits ++ applyMask maskBits data) :=
                recvN_exact 8 _ _ (encodeBE_length 8 _)
              have hdec : decodeBE (encodeBE 8 data.length) = data.length :=
                decodeBE_encodeBE 8 _ (by norm_num; omega)
              rw [hw]
              simp only [readFragment, recvN_two, decodeBE_two,
                hFIN, hRES, hOP, hMASK, hLEN, f1, f2, f3, hrecv, hdec, hms,
                hrecv4, hrecvd]
              rcases hop with rfl | rfl | rfl | rfl | rfl | rfl <;>
                simp_all [OP_CONT, OP_TEXT, OP_BINARY, OP_CLOSE, OP_PING,
                  OP_PONG, applyMask_involution, applyMask_length]
  | false =>
      cases mask with
      | false =>
          by_cases hl1 : data.length < 126
          · have hw : writeFragment false maskBits opcode data false
                = opcode :: data.length :: data := by
              simp [writeFragment, hl1]
            obtain ⟨hFIN, hRES, hOP, hMASK, hLEN⟩ :=
              head_bits opcode data.length (by omega)
            obtain ⟨_, _, _, hb128, hb127⟩ := b1_facts data.length (by omega)
            have hne126 : data.length ≠ 126 := by omega
            have hne127 : data.length ≠ 127 := by omega
            rw [hw]
            simp only [readFragment, recvN_two, decodeBE_two,
              hFIN, hRES, hOP, hMASK, hLEN, f5, f6, f7, hb128, hb127,
              hne126, hne127, hms, recvN_all]
            rcases hop with rfl | rfl | rfl | rfl | rfl | rfl <;>
              first
              | exact absurd (hctl (by decide)).2 (by simp)
              | simp_all [OP_CONT, OP_TEXT, OP_BINARY, OP_CLOSE, OP_PING,
                  OP_PONG, recvN_all]
          · by_cases hl2 : data.length < 65536
            · have hw : writeFragment false maskBits opcode data false
                  = opcode :: 126 :: (encodeBE 2 data.length ++ data) := by
                simp [writeFragment, hl1, hl2]
              obtain ⟨hFIN, hRES, hOP, hMASK, hLEN⟩ :=
                head_bits opcode 126 (by norm_num)
              have hrecv : recvN 2 (encodeBE 2 data.length ++ data)
                  = .ok (encodeBE 2 data.length, data) :=
                recvN_exact 2 _ data (encodeBE_length 2 _)
              have hdec : decodeBE (encodeBE 2 data.length) = data.length :=
                decodeBE_encodeBE 2 _ (by norm_num; omega)
              rw [hw]
              simp only [readFragment, recvN_two, decodeBE_two,
                hFIN, hRES, hOP, hMASK, hLEN, f5, f6, f7, hrecv, hdec, hms,
                recvN_all]
              rcases hop with rfl | rfl | rfl | rfl | rfl | rfl <;>
                first
                | exact absurd (hctl (by decide)).2 (by simp)
                | simp_all [OP_CONT, OP_TEXT, OP_BINARY, OP_CLOSE, OP_PING,
                    OP_PONG, recvN_all]
            · have hw : writeFragment false maskBits opcode data false
                  = opcode :: 127 :: (encodeBE 8 data.length ++ data) := by
                simp [writeFragment, hl1, hl2]
              obtain ⟨hFIN, hRES, hOP, hMASK, hLEN⟩ :=
                head_bits opcode 127 (by norm_num)
              have hrecv : recvN 8 (encodeBE 8 data.length ++ data)
                  = .ok (encodeBE 8 data.length, data) :=
                recvN_exact 8 _ data (encodeBE_length 8 _)
              have hdec : decodeBE (encodeBE 8 data.length) = data.length :=
                decodeBE_encodeBE 8 _ (by norm_num; omega)
              rw [hw]
              simp only [readFragment, recvN_two, decodeBE_two,
                hFIN, hRES, hOP, hMASK, hLEN, f5, f6, f7, hrecv, hdec, hms,
                recvN_all]
              rcases hop with rfl | rfl | rfl | rfl | rfl | rfl <;>
                first
                | exact absurd (hctl (by decide)).2 (by simp)
                | simp_all [OP_CONT, OP_TEXT, OP_BINARY, OP_CLOSE, OP_PING,
                    OP_PONG, recvN_all]
      | true =>
          have hrecv4 : recvN 4 (maskBits ++ applyMask maskBits data)
              = .ok (maskBits, applyMask maskBits data) :=
            recvN_exact 4 _ _ (hmb4 rfl)
          have hrecvd : recvN data.length (applyMask maskBits data)
              = .ok (applyMask maskBits data, []) := by
            rw [← applyMask_length maskBits data]
            exact recvN_all _
          by_cases hl1 : data.length < 126
          · have hw : writeFragment true maskBits opcode data false
                = opcode :: (128 ||| data.length)
                  :: (maskBits ++ applyMask maskBits data) := by
              simp [writeFragment, hl1]
            obtain ⟨hm128, hm127, hmlt, _, _⟩ := b1_facts data.length (by omega)
            obtain ⟨hFIN, hRES, hOP, hMASK, hLEN⟩ :=
              head_bits opcode (128 ||| data.length) hmlt
            have hne126 : data.length ≠ 126 := by omega
            have hne127 : data.length ≠ 127 := by omega
            rw [hw]
            simp only [readFragment, recvN_two, decodeBE_two,
              hFIN, hRES, hOP, hMASK, hLEN, f5, f6, f7, hm128, hm127,
              hne126, hne127, hms, hrecv4, hrecvd]
            rcases hop with rfl | rfl | rfl | rfl | rfl | rfl <;>
              first
              | exact absurd (hctl (by decide)).2 (by simp)
              | simp_all [OP_CONT, OP_TEXT, OP_BINARY, OP_CLOSE, OP_PING,
                  OP_PONG, applyMask_involution, applyMask_length]
          · by_cases hl2 : data.length < 65536
            · have hw : writeFragment true maskBits opcode data false
                  = opcode :: (128 ||| 126)
                    :: (encodeBE 2 data.length
                        ++ (maskBits ++ applyMask maskBits data)) := by
                simp [writeFragment, hl1, hl2]
              obtain ⟨hFIN, hRES, hOP, hMASK, hLEN⟩ :=
                head_bits opcode (128 ||| 126) (by decide)
              have hrecv : recvN 2
                    (encodeBE 2 data.length
                      ++ (maskBits ++ applyMask maskBits data))
                  = .ok (encodeBE 2 data.length,
                         maskBits ++ applyMask maskBits data) :=
                recvN_exact 2 _ _ (encodeBE_length 2 _)
              have hdec : decodeBE (encodeBE 2 data.length) = data.length :=
                decodeBE_encodeBE 2 _ (by norm_num; omega)
              rw [hw]
              simp only [readFragment, recvN_two, decodeBE_two,
                hFIN, hRES, hOP, hMASK, hLEN, f5, f6, f7, hrecv, hdec, hms,
                hrecv4, hrecvd]
              rcases hop with rfl | rfl | rfl | rfl | rfl | rfl <;>
                first
                | exact absurd (hctl (by decide)).2 (by simp)
                | simp_all [OP_CONT, OP_TEXT, OP_BINARY, OP_CLOSE, OP_PING,
                    OP_PONG, applyMask_involution, applyMask_length]
            · have hw : writeFragment true maskBits opcode data false
                  = opcode :: (128 ||| 127)
                    :: (encodeBE 8 data.length
                        ++ (maskBits ++ applyMask maskBits data)) := by
                simp [writeFragment, hl1, hl2]
              obtain ⟨hFIN, hRES, hOP, hMASK, hLEN⟩ :=
                head_bits opcode (128 ||| 127) (by decide)
              have hrecv : recvN 8
                    (encodeBE 8 data.length
                      ++ (maskBits ++ applyMask maskBits data))
                  = .ok (encodeBE 8 data.length,
                         maskBits ++ applyMask maskBits data) :=
                recvN_exact 8 _ _ (encodeBE_length 8 _)
              have hdec : decodeBE (encodeBE 8 data.length) = data.length :=
                decodeBE_encodeBE 8 _ (by norm_num; omega)
              rw [hw]
              simp only [readFragment, recvN_two, decodeBE_two,
                hFIN, hRES, hOP, hMASK, hLEN, f5, f6, f7, hrecv, hdec, hms,
                hrecv4, hrecvd]
              rcases hop with rfl | rfl | rfl | rfl | rfl | rfl <;>
                first
                | exact absurd (hctl (by decide)).2 (by simp)
                | simp_all [OP_CONT, OP_TEXT, OP_BINARY, OP_CLOSE, OP_PING,
                    OP_PONG, applyMask_involution, applyMask_length]

/-- Witness for `frame_encode_decode_roundtrip`: a masked binary frame
with payload `[1, 2, 3]` and key `[7, 8, 9, 10]` decodes back to
itself. -/
theorem frame_encode_decode_roundtrip_witness :
    readFragment true none
        (writeFragment true [7, 8, 9, 10] OP_BINARY [1, 2, 3] true)
      = .ok ((OP_BINARY, [1, 2, 3], true), []) :=
  (frame_encode_decode_roundtrip OP_BINARY [1, 2, 3] true true
    [7, 8, 9, 10] none (by decide)
    (by intro h; exact absurd h (by decide)) (by decide) (by decide)
    (fun _ => rfl) (by decide) (fun m hm => by cases hm)).1

/-- **C9.** (code bug) The engine never writes the pong: `Websocket`
defines no `writePongFrame` attribute, so every received ping raises
`AttributeError` inside the receive loop (which the loop's generic
handler turns into a 1011 close) instead of answering with a pong
carrying the ping's payload. -/
theorem ping_never_answered :
    ("writePongFrame" ∈ websocketAttrs) = False ∧
    ∀ data : List Nat, readNextFrameOnPing data = .error "AttributeError" := by
  refine ⟨by decide, fun data => rfl⟩

end Unstuck

namespace Unstuck

/-- Scenario of spec §8: capacity-2 queue, `put 1; put 2; put 3` then
three `get`s.  The helper runs the sequence and returns the interesting
observables. -/
def queueScenario : Option (QState × PutRet × List Int × Bool × Bool) := do
  let s0 := QState.init 2
  let (s1, _) := s0.put 1
  let (s2, _) := s1.put 2
  let (s3, r3) := s2.put 3
  -- is the third put's cell resolved before the first get?
  let thirdPutId ← match r3 with | .pending id => some id | .done => none
  let beforeFirstGet := s3.isResolved thirdPutId
  let (s4, g1) ← s3.get
  let afterFirstGet := s4.isResolved thirdPutId
  let (s5, g2) ← s4.get
  let (s6, g3) ← s5.get
  let v1 ← match g1 with | .value _ v => some v | _ => none
  let v2 ← match g2 with | .value _ v => some v | _ => none
  let v3 ← match g3 with | .value _ v => some v | _ => none
  return (s6, r3, [v1, v2, v3], beforeFirstGet, afterFirstGet)

end Unstuck

namespace Unstuck

/-- **C1.** (code bug) `Queue.get` with a waiting producer on a bounded
queue does *not* resolve the consumer with the head of the value buffer:
the final `fut.setResult(value)` at src/queue.py:81 uses the producer's
value (`myValue`, the popped head, is dead), so the value is delivered
twice (buffered *and* handed to the consumer) and the popped head is
dropped.  Concretely: a queue of capacity 1 with buffer `[5]` and
waiting producer `(7, 9)` delivers `9`, not the head `5`; and the
capacity-2 scenario `put 1; put 2; put 3` with three `get`s delivers
`3, 2, 3` instead of the claimed `1, 2, 3` (the third `put`'s cell does,
as claimed, resolve only at the first `get`). -/
theorem queue_bounded_get_delivers_producer_value :
    (QState.get { values := [5], getwaiters := [], putwaiters := [(7, 9)],
                  length := 1, nextId := 8, resolvedLog := [] } = some
      ({ values := [9], getwaiters := [], putwaiters := [],
         length := 1, nextId := 9,
         resolvedLog := [(7, none), (8, some 9)] },
       .value 8 9)) ∧
    (∃ out, queueScenario = some out ∧
      out.2.2.1 = [3, 2, 3] ∧
      out.2.2.1 ≠ [1, 2, 3] ∧
      out.2.1 = .pending 0 ∧
      out.2.2.2.1 = false ∧
      out.2.2.2.2 = true) := by
  refine ⟨rfl, ⟨_, rfl, rfl, by decide, rfl, rfl, rfl⟩⟩

/-! ## Dispatcher (`src/events.py`)

FDs, masks and callbacks are `Nat`; queue entries are `(callback id,
args)` pairs; the timer heap is a list of `(deadline, entry)` (heapq is a
min-heap; `popMin` pops a minimal-key element).  Times are `Int` (the
claims do not hinge on float behaviour).  `epoll` interest is an
association list `fd → combined mask`; the poll itself is a parameter
`poll : timeout → readiness list` (`-1` meaning indefinite). -/

/-- Set a key in an association list: replace the first occurrence or
append (Python dict assignment). -/
def assocSet {β : Type} (l : List (Nat × β)) (k : Nat) (v : β) :
    List (Nat × β) :=
  match l with
  | [] => [(k, v)]
  | (k', v') :: rest =>
      if k' = k then (k, v) :: rest else (k', v') :: assocSet rest k v

/-- Dispatcher state (`Dispatcher.__init__` plus the inherited
`Schedule`): `handles` maps fd to its mask→callback dict (insertion
order), `poller` is the epoll interest per fd. -/
structure Dispatcher where
  handles : List (Nat × List (Nat × Nat)) := []
  poller : List (Nat × Nat) := []
  handleQueue : List (Nat × List Nat) := []
  lowPriorityHandleQueue : List (Nat × List Nat) := []
  heap : List (Int × (Nat × List Nat)) := []
  deriving Repr, DecidableEq

/-- The overlap-checking loop of `registerFileEvent`: fold the existing
masks into `acc`, failing on the first mask that shares a bit with
`mask`. -/
def buildRegisterMask (mask : Nat) (acc : Nat) : List Nat → Option Nat
  | [] => some acc
  | om :: rest =>
      if om &&& mask ≠ 0 then none else buildRegisterMask mask (acc ||| om) rest

/-- `Dispatcher.registerFileEvent`.  The error value carries the state at
raise time (no mutation precedes the raise, so it is the input state). -/
def Dispatcher.registerFileEvent (d : Dispatcher) (fd mask cb : Nat) :
    Except (String × Dispatcher) Dispatcher :=
  match d.handles.lookup fd with
  | some handleList =>
      match buildRegisterMask mask mask (handleList.map Prod.fst) with
      | none => .error ("Mask clash", d)
      | some registerMask =>
          .ok { d with poller := assocSet d.poller fd registerMask,
                       handles := assocSet d.handles fd
                         (assocSet handleList mask cb) }
  | none =>
      .ok { d with handles := assocSet d.handles fd [(mask, cb)],
                   poller := assocSet d.poller fd mask }

/-- `Schedule.readyTime` as `min heap key − now`; `none` models the
`inf` returned on an empty heap. -/
def readyTime (heap : List (Int × (Nat × List Nat))) (now : Int) :
    Option Int :=
  (heap.map Prod.fst).min?.map (· - now)

/-- The test `self.readyTime() < 0.0` (`inf < 0` is false). -/
def readyTimeLt0 (t : Option Int) : Bool :=
  match t with
  | some v => v < 0
  | none => false

/-- `heapq.heappop`: remove a minimal-key element (ties may pop either;
the first minimal element is taken, which is one valid heap order). -/
def popMin : List (Int × (Nat × List Nat)) →
    Option ((Int × (Nat × List Nat)) × List (Int × (Nat × List Nat)))
  | [] => none
  | x :: xs =>
      match popMin xs with
      | none => some (x, [])
      | some ((k, e), rest) =>
          if x.1 ≤ k then some (x, xs) else some ((k, e), x :: rest)

theorem popMin_cons_isSome (x : Int × (Nat × List Nat))
    (xs : List (Int × (Nat × List Nat))) : (popMin (x :: xs)).isSome := by
  simp only [popMin]
  cases popMin xs with
  | none => simp
  | some p =>
      obtain ⟨⟨k, e⟩, r⟩ := p
      dsimp only
      split <;> simp

theorem popMin_length (l : List (Int × (Nat × List Nat)))
    (m : Int × (Nat × List Nat)) (rest : List (Int × (Nat × List Nat)))
    (h : popMin l = some (m, rest)) : rest.length + 1 = l.length := by
  induction l generalizing m rest with
  | nil => simp [popMin] at h
  | cons x xs ih =>
      simp only [popMin] at h
      cases hx : popMin xs with
      | none =>
          rw [hx] at h
          cases xs with
          | nil => simp_all
          | cons y ys =>
              have := popMin_cons_isSome y ys
              rw [hx] at this
              simp at this
      | some p =>
          obtain ⟨⟨k, e⟩, krest⟩ := p
          rw [hx] at h
          by_cases hle : x.1 ≤ k
          · simp [hle] at h
            simp [← h.2]
          · simp [hle] at h
            have := ih (k, e) krest hx
            rw [← h.2]
            simp
            omega

/-- The drain loop `while self.readyTime() < 0.0:
self.handleQueue.append(self.popHandle())`. -/
def drainExpired (heap : List (Int × (Nat × List Nat)))
    (queue : List (Nat × List Nat)) (now : Int) :
    List (Int × (Nat × List Nat)) × List (Nat × List Nat) :=
  match h : popMin heap with
  | some ((k, e), rest) =>
      if k - now < 0 then drainExpired rest (queue ++ [e]) now
      else (heap, queue)
  | none => (heap, queue)
termination_by heap.length
decreasing_by
  have := popMin_length heap (k, e) rest h
  omega

/-- `Dispatcher._scheduleEvents`: translate readiness into main-queue
entries.  A missing fd raises `KeyError` (`none`). -/
def scheduleEvents (d : Dispatcher) : List (Nat × Nat) → Option Dispatcher
  | [] => some d
  | (activeFD, activeMask) :: rest =>
      match d.handles.lookup activeFD with
      | none => none
      | some handleList =>
          let newEntries := handleList.filterMap (fun p =>
            let eff := (p.1 ||| errorCheckingMask) &&& activeMask
            if eff ≠ 0 then some (p.2, [eff]) else none)
          scheduleEvents { d with handleQueue := d.handleQueue ++ newEntries }
            rest

/-- `Dispatcher._pollEventsFast`: non-blocking poll, schedule whatever is
already ready. -/
def pollEventsFast (d : Dispatcher) (poll : Int → List (Nat × Nat)) :
    Option Dispatcher :=
  let keys := poll 0
  if keys = [] then some d else scheduleEvents d keys

/-- `Dispatcher._pollEvents` with the given timeout (`none` = `inf`,
mapped to `-1`).  A single instant `now` stands for the clock. -/
def pollEvents (d : Dispatcher) (poll : Int → List (Nat × Nat))
    (timeout : Option Int) (now : Int) : Option Dispatcher :=
  let t := match timeout with | none => -1 | some v => v
  let keys := poll t
  if keys = [] then
    let (heap', q') := drainExpired d.heap d.handleQueue now
    some { d with heap := heap', handleQueue := q' }
  else scheduleEvents d keys

/-- `Dispatcher.runNextHandle`: the scheduling step.  Returns the new
state and the popped entry to invoke; `none` models the `IndexError` of
popping an empty deque (or a `KeyError` during readiness translation). -/
def runNextHandle (d : Dispatcher) (now : Int)
    (poll : Int → List (Nat × Nat)) :
    Option (Dispatcher × (Nat × List Nat)) :=
  let step : Option Dispatcher :=
    if d.handleQueue.length = 0 then
      let timeToNext := readyTime d.heap now
      if readyTimeLt0 timeToNext then
        let p := drainExpired d.heap d.handleQueue now
        some { d with heap := p.1, handleQueue := p.2 }
      else if d.lowPriorityHandleQueue.length > 0 then
        match pollEventsFast d poll with
        | none => none
        | some d2 =>
            match d2.lowPriorityHandleQueue with
            | h :: rest =>
                some { d2 with lowPriorityHandleQueue := rest,
                               handleQueue := d2.handleQueue ++ [h] }
            | [] => none
      else pollEvents d poll timeToNext now
    else some d
  match step with
  | none => none
  | some d2 =>
      match d2.handleQueue with
      | h :: rest => some ({ d2 with handleQueue := rest }, h)
      | [] => none

theorem buildRegisterMask_eq_none (mask : Nat) (acc : Nat) (ms : List Nat) :
    buildRegisterMask mask acc ms = none ↔ ∃ om ∈ ms, om &&& mask ≠ 0 := by
  induction ms generalizing acc with
  | nil => simp [buildRegisterMask]
  | cons om rest ih =>
      by_cases hov : om &&& mask ≠ 0
      · simp [buildRegisterMask, hov]
      · simp only [buildRegisterMask, hov, if_false, ih, List.mem_cons]
        constructor
        · rintro ⟨o, ho, hno⟩; exact ⟨o, Or.inr ho, hno⟩
        · rintro ⟨o, ho | ho, hno⟩
          · simp only [ho] at hno; exact absurd hno hov
          · exact ⟨o, ho, hno⟩

theorem buildRegisterMask_testBit (mask : Nat) (acc : Nat) (ms : List Nat)
    (r : Nat) (h : buildRegisterMask mask acc ms = some r) (i : Nat) :
    r.testBit i = (acc.testBit i || ms.any (fun m => m.testBit i)) := by
  induction ms generalizing acc with
  | nil =>
      simp only [buildRegisterMask, Option.some.injEq] at h
      simp [← h]
  | cons om rest ih =>
      simp only [buildRegisterMask] at h
      split at h
      · exact absurd h (by simp)
      · rw [ih (acc ||| om) h]
        simp [Bool.or_assoc]

/-- **C6.** `registerFileEvent(fd, mask, cb)` raises exactly when `mask`
shares a bit with a mask already registered for `fd`, and then the handle
table and the poller interest are those of the input state (unchanged);
with no overlap the binding is added and the poller's combined mask for
`fd` has exactly the bits of `mask` and of every previously registered
mask (their union); a fresh `fd` is registered with `mask` alone. -/
theorem register_fd_overlap_fails_cleanly
    (d : Dispatcher) (fd mask cb : Nat) :
    (∀ handleList, d.handles.lookup fd = some handleList →
      ((∃ om ∈ handleList.map Prod.fst, om &&& mask ≠ 0) →
        d.registerFileEvent fd mask cb = .error ("Mask clash", d)) ∧
      ((∀ om ∈ handleList.map Prod.fst, om &&& mask = 0) →
        ∃ registerMask,
          d.registerFileEvent fd mask cb = .ok
            { d with poller := assocSet d.poller fd registerMask,
                     handles := assocSet d.handles fd
                       (assocSet handleList mask cb) } ∧
          ∀ i, registerMask.testBit i =
            (mask.testBit i ||
              (handleList.map Prod.fst).any (fun m => m.testBit i)))) ∧
    (d.handles.lookup fd = none →
      d.registerFileEvent fd mask cb = .ok
        { d with handles := assocSet d.handles fd [(mask, cb)],
                 poller := assocSet d.poller fd mask }) := by
  constructor
  · intro handleList hlook
    constructor
    · intro hov
      have hnone : buildRegisterMask mask mask (handleList.map Prod.fst)
          = none := (buildRegisterMask_eq_none _ _ _).mpr hov
      simp [Dispatcher.registerFileEvent, hlook, hnone]
    · intro hno
      have : ¬ buildRegisterMask mask mask (handleList.map Prod.fst)
          = none := by
        rw [buildRegisterMask_eq_none]
        rintro ⟨om, hom, hne⟩
        exact hne (hno om hom)
      cases hb : buildRegisterMask mask mask (handleList.map Prod.fst) with
      | none => exact absurd hb this
      | some registerMask =>
          refine ⟨registerMask, ?_, ?_⟩
          · simp [Dispatcher.registerFileEvent, hlook, hb]
          · intro i
            rw [buildRegisterMask_testBit mask mask _ registerMask hb i]
  · intro hlook
    simp [Dispatcher.registerFileEvent, hlook]

/-- Witness for `register_fd_overlap_fails_cleanly`: fd 3 holds mask 1;
registering mask 3 (overlaps) fails with the state unchanged, and
registering mask 2 (disjoint) extends the poller mask to 3. -/
theorem register_fd_overlap_fails_cleanly_witness :
    (Dispatcher.registerFileEvent
        { handles := [(3, [(1, 7)])], poller := [(3, 1)] } 3 3 9 =
      .error ("Mask clash",
        { handles := [(3, [(1, 7)])], poller := [(3, 1)] })) ∧
    (∃ registerMask,
      Dispatcher.registerFileEvent
          { handles := [(3, [(1, 7)])], poller := [(3, 1)] } 3 2 9 =
        .ok { handles := assocSet [(3, [(1, 7)])] 3 (assocSet [(1, 7)] 2 9),
              poller := assocSet [(3, 1)] 3 registerMask } ∧
      ∀ i, registerMask.testBit i =
        ((2 : Nat).testBit i || [1].any (fun m => Nat.testBit m i))) := by
  constructor
  · exact ((register_fd_overlap_fails_cleanly
      { handles := [(3, [(1, 7)])], poller := [(3, 1)] } 3 3 9).1
      [(1, 7)] rfl).1 ⟨1, by decide, by decide⟩
  · exact ((register_fd_overlap_fails_cleanly
      { handles := [(3, [(1, 7)])], poller := [(3, 1)] } 3 2 9).1
      [(1, 7)] rfl).2 (by decide)

theorem scheduleEvents_frame (evs : List (Nat × Nat)) (d d' : Dispatcher)
    (h : scheduleEvents d evs = some d') :
    d'.lowPriorityHandleQueue = d.lowPriorityHandleQueue ∧
    d'.heap = d.heap ∧ d'.handles = d.handles ∧ d'.poller = d.poller ∧
    ∃ es, d'.handleQueue = d.handleQueue ++ es := by
  induction evs generalizing d with
  | nil =>
      simp only [scheduleEvents, Option.some.injEq] at h
      exact ⟨by rw [h], by rw [h], by rw [h], by rw [h], [], by rw [h]; simp⟩
  | cons ev rest ih =>
      obtain ⟨activeFD, activeMask⟩ := ev
      simp only [scheduleEvents] at h
      cases hl : d.handles.lookup activeFD with
      | none => rw [hl] at h; exact absurd h (by simp)
      | some handleList =>
          rw [hl] at h
          obtain ⟨h1, h2, h3, h4, es, h5⟩ := ih _ h
          refine ⟨h1, h2, h3, h4,
            (handleList.filterMap (fun p =>
              let eff := (p.1 ||| errorCheckingMask) &&& activeMask
              if eff ≠ 0 then some (p.2, [eff]) else none)) ++ es, ?_⟩
          rw [h5]
          simp

theorem pollEventsFast_frame (d d' : Dispatcher)
    (poll : Int → List (Nat × Nat)) (h : pollEventsFast d poll = some d') :
    d'.lowPriorityHandleQueue = d.lowPriorityHandleQueue ∧
    d'.heap = d.heap ∧ d'.handles = d.handles ∧ d'.poller = d.poller ∧
    ∃ es, d'.handleQueue = d.handleQueue ++ es := by
  simp only [pollEventsFast] at h
  split at h
  · cases h
    exact ⟨rfl, rfl, rfl, rfl, [], by simp⟩
  · exact scheduleEvents_frame _ _ _ h

/-- **C7.** On `run_next` with an empty main queue, no expired timer
deadline and a non-empty low-priority queue, the dispatcher polls with
timeout 0 (the `pollEventsFast` path — it never blocks), appends the
resulting readiness entries to the main queue, moves exactly one
low-priority entry to the main queue's tail, and pops and invokes the
head of the resulting main queue; timers and the remaining low-priority
entries are untouched. -/
theorem run_next_low_priority_nonblocking
    (d : Dispatcher) (now : Int) (poll : Int → List (Nat × Nat))
    (lh : Nat × List Nat) (lrest : List (Nat × List Nat)) (dP : Dispatcher)
    (hq : d.handleQueue = [])
    (hne : ∀ k ∈ d.heap.map Prod.fst, ¬ k - now < 0)
    (hlp : d.lowPriorityHandleQueue = lh :: lrest)
    (hfast : pollEventsFast d poll = some dP) :
    runNextHandle d now poll = some
      ({ dP with lowPriorityHandleQueue := lrest,
                 handleQueue := (dP.handleQueue ++ [lh]).tail },
       (dP.handleQueue ++ [lh]).headI) ∧
    dP.heap = d.heap ∧
    dP.handleQueue = (pollEventsFast d poll).elim [] Dispatcher.handleQueue := by
  have hframe := pollEventsFast_frame d dP poll hfast
  have hlt : readyTimeLt0 (readyTime d.heap now) = false := by
    cases hmin : (d.heap.map Prod.fst).min? with
    | none => simp [readyTime, readyTimeLt0, hmin]
    | some k =>
        have hk : k ∈ d.heap.map Prod.fst :=
          List.min?_mem (fun _ _ => min_choice _ _) hmin
        have hnk := hne k hk
        simp [readyTime, readyTimeLt0, hmin, hnk]
  refine ⟨?_, hframe.2.1, by rw [hfast]; rfl⟩
  unfold runNextHandle
  rw [hq]
  simp only [List.length_nil, if_pos rfl, hlt, Bool.false_eq_true, if_false,
    hlp, List.length_cons, if_pos (Nat.succ_pos _), hfast]
  rw [hframe.1, hlp]
  cases hdq : dP.handleQueue with
  | nil => simp
  | cons e es => simp

/-- Witness for `run_next_low_priority_nonblocking`: fd 3 registered with
mask 1, one low-priority entry, a timer due exactly now (not expired),
and a poll reporting fd 3 readable. -/
theorem run_next_low_priority_nonblocking_witness :
    runNextHandle
        { handles := [(3, [(1, 7)])], poller := [(3, 1)], handleQueue := [],
          lowPriorityHandleQueue := [(9, [])], heap := [(5, (1, []))] }
        5 (fun _ => [(3, 1)]) = some
      ({ handles := [(3, [(1, 7)])], poller := [(3, 1)],
         handleQueue := ([(7, [1])] ++ [(9, [])]).tail,
         lowPriorityHandleQueue := [], heap := [(5, (1, []))] },
       ([(7, [1])] ++ [(9, [])]).headI) := by
  exact (run_next_low_priority_nonblocking
    { handles := [(3, [(1, 7)])], poller := [(3, 1)], handleQueue := [],
      lowPriorityHandleQueue := [(9, [])], heap := [(5, (1, []))] }
    5 (fun _ => [(3, 1)]) (9, []) []
    { handles := [(3, [(1, 7)])], poller := [(3, 1)],
      handleQueue := [(7, [1])],
      lowPriorityHandleQueue := [(9, [])], heap := [(5, (1, []))] }
    rfl (by decide) rfl rfl).1

/-! ## Deferred cells (`src/core.py` `Future`, `src/aux.py` `Barrier`)

A `Future` holds `isDone`, an optional callback (modelled by an id), a
stored result and a stored error (ids).  Each resolving operation runs the
`assert not self.isDone` first, modelled by returning `none` when the
assertion fires (the state is unchanged in Python since the assert
precedes every mutation).  The callback invocation / scheduling that a
resolution triggers is returned as a list of effects. -/

/-- Effects emitted by `Future`/`Barrier` resolution: scheduling the
callback on the high- or medium-priority queue, or invoking it now
(`fast`).  The payload is `(callback id, value-or-error id)`. -/
inductive FEffect where
  | scheduleHighSend (cb : Nat) (v : Int)
  | scheduleMediumSend (cb : Nat) (v : Int)
  | sendNow (cb : Nat) (v : Int)
  | scheduleHighThrow (cb : Nat) (e : Nat)
  | scheduleMediumThrow (cb : Nat) (e : Nat)
  | throwNow (cb : Nat) (e : Nat)
  deriving Repr, DecidableEq

/-- The fields of `Future.__init__` plus the lazily-created `result` and
`errorAccessed` slots (absent attributes modelled as `none`/`false`). -/
structure Fut where
  isDone : Bool := false
  cb : Option Nat := none
  result : Option Int := none
  error : Option Nat := none
  errorAccessed : Bool := false
  deriving Repr, DecidableEq

/-- `Future.setResult`. -/
def Fut.setResult (f : Fut) (v : Int) : Option (Fut × List FEffect) :=
  if f.isDone then none else
  match f.cb with
  | some c => some ({ f with isDone := true }, [.scheduleHighSend c v])
  | none => some ({ f with isDone := true, result := some v }, [])

/-- `Future.setResultLate`. -/
def Fut.setResultLate (f : Fut) (v : Int) : Option (Fut × List FEffect) :=
  if f.isDone then none else
  match f.cb with
  | some c => some ({ f with isDone := true }, [.scheduleMediumSend c v])
  | none => some ({ f with isDone := true, result := some v }, [])

/-- `Future.setResultFast`. -/
def Fut.setResultFast (f : Fut) (v : Int) : Option (Fut × List FEffect) :=
  if f.isDone then none else
  match f.cb with
  | some c => some ({ f with isDone := true }, [.sendNow c v])
  | none => some ({ f with isDone := true, result := some v }, [])

/-- `Future.setError`.  With a callback attached, the `__cbError` helper
is scheduled (which marks the error accessed when it later runs);
otherwise the error is stored with `errorAccessed = False`. -/
def Fut.setError (f : Fut) (e : Nat) : Option (Fut × List FEffect) :=
  if f.isDone then none else
  match f.cb with
  | some c => some ({ f with isDone := true }, [.scheduleHighThrow c e])
  | none => some ({ f with isDone := true, errorAccessed := false,
                           error := some e }, [])

/-- `Future.setErrorLate`. -/
def Fut.setErrorLate (f : Fut) (e : Nat) : Option (Fut × List FEffect) :=
  if f.isDone then none else
  match f.cb with
  | some c => some ({ f with isDone := true }, [.scheduleMediumThrow c e])
  | none => some ({ f with isDone := true, errorAccessed := false,
                           error := some e }, [])

/-- `Future.setErrorFast`. -/
def Fut.setErrorFast (f : Fut) (e : Nat) : Option (Fut × List FEffect) :=
  if f.isDone then none else
  match f.cb with
  | some c => some ({ f with isDone := true, errorAccessed := true },
                    [.throwNow c e])
  | none => some ({ f with isDone := true, errorAccessed := false,
                           error := some e }, [])

/-- The resolving operations of `Future` named in the spec (the at-most-
once claim is about these; `setCallback` does not resolve). -/
inductive FutOp where
  | setResult (v : Int)
  | setResultLate (v : Int)
  | setResultFast (v : Int)
  | setError (e : Nat)
  | setErrorLate (e : Nat)
  | setErrorFast (e : Nat)
  deriving Repr, DecidableEq

/-- Apply one resolving operation. -/
def FutOp.apply : FutOp → Fut → Option (Fut × List FEffect)
  | .setResult v, f => f.setResult v
  | .setResultLate v, f => f.setResultLate v
  | .setResultFast v, f => f.setResultFast v
  | .setError e, f => f.setError e
  | .setErrorLate e, f => f.setErrorLate e
  | .setErrorFast e, f => f.setErrorFast e

/-- Run a sequence of resolving operations; an operation whose
`assert not self.isDone` fires leaves the state unchanged (the assert
raises before any mutation). -/
def runFutOps (ops : List FutOp) (f : Fut) : Fut :=
  ops.foldl (fun f op => match op.apply f with
    | some (f', _) => f'
    | none => f) f

/-- `Barrier` from `src/aux.py`: inherits the `Future` fields but keeps a
list of callbacks (`setCallback` appends). -/
structure Bar where
  isDone : Bool := false
  cbs : Option (List Nat) := none
  deriving Repr, DecidableEq

/-- `Barrier.release`: asserts pending, marks done, schedules every
callback on the high-priority queue. -/
def Bar.release (b : Bar) : Option (Bar × List FEffect) :=
  if b.isDone then none else
  match b.cbs with
  | some cbs => some ({ b with isDone := true },
                      cbs.map (fun c => .scheduleHighSend c 0))
  | none => some ({ b with isDone := true }, [])

/-- `Barrier.releaseFast`: as `release` with synchronous callbacks. -/
def Bar.releaseFast (b : Bar) : Option (Bar × List FEffect) :=
  if b.isDone then none else
  match b.cbs with
  | some cbs => some ({ b with isDone := true },
                      cbs.map (fun c => .sendNow c 0))
  | none => some ({ b with isDone := true }, [])

/-- The two resolving operations of `Barrier`. -/
inductive BarOp where
  | release
  | releaseFast
  deriving Repr, DecidableEq

/-- Apply one barrier operation. -/
def BarOp.apply : BarOp → Bar → Option (Bar × List FEffect)
  | .release, b => b.release
  | .releaseFast, b => b.releaseFast

/-- Run a sequence of barrier operations, failed asserts leaving the
state unchanged. -/
def runBarOps (ops : List BarOp) (b : Bar) : Bar :=
  ops.foldl (fun b op => match op.apply b with
    | some (b', _) => b'
    | none => b) b

/-- **C3.** Every deferred cell is resolved at most once: each resolving
operation of `Future` (`setResult`, `setError` and their late/fast
variants) and of `Barrier` (`release`, `releaseFast`) succeeds only on a
pending cell and transitions it to done; on a done cell every such
operation fails its assertion; and no sequence of resolving operations
ever changes a done cell (in particular never back to pending or to a
second resolution). -/
theorem future_resolved_at_most_once :
    (∀ (op : FutOp) (f f' : Fut) (effs : List FEffect),
      op.apply f = some (f', effs) → f.isDone = false ∧ f'.isDone = true) ∧
    (∀ (op : FutOp) (f : Fut), f.isDone = true → op.apply f = none) ∧
    (∀ (ops : List FutOp) (f : Fut), f.isDone = true → runFutOps ops f = f) ∧
    (∀ (op : BarOp) (b b' : Bar) (effs : List FEffect),
      op.apply b = some (b', effs) → b.isDone = false ∧ b'.isDone = true) ∧
    (∀ (op : BarOp) (b : Bar), b.isDone = true → op.apply b = none) ∧
    (∀ (ops : List BarOp) (b : Bar), b.isDone = true → runBarOps ops b = b) := by
  have hfop : ∀ (op : FutOp) (f : Fut), f.isDone = true → op.apply f = none := by
    intro op f h
    cases op <;>
      simp [FutOp.apply, Fut.setResult, Fut.setResultLate, Fut.setResultFast,
            Fut.setError, Fut.setErrorLate, Fut.setErrorFast, h]
  have hbop : ∀ (op : BarOp) (b : Bar), b.isDone = true → op.apply b = none := by
    intro op b h
    cases op <;> simp [BarOp.apply, Bar.release, Bar.releaseFast, h]
  refine ⟨?_, hfop, ?_, ?_, hbop, ?_⟩
  · intro op f f' effs h
    cases op <;>
      [skip; skip; skip; skip; skip; skip] <;>
      · by_cases hd : f.isDone
        · simp [FutOp.apply, Fut.setResult, Fut.setResultLate,
                Fut.setResultFast, Fut.setError, Fut.setErrorLate,
                Fut.setErrorFast, hd] at h
        · simp only [Bool.not_eq_true] at hd
          refine ⟨hd, ?_⟩
          revert h
          cases hc : f.cb <;>
            simp [FutOp.apply, Fut.setResult, Fut.setResultLate,
                  Fut.setResultFast, Fut.setError, Fut.setErrorLate,
                  Fut.setErrorFast, hd, hc] <;>
            rintro rfl _ <;> rfl
  · intro ops
    induction ops with
    | nil => intro f h; rfl
    | cons op rest ih =>
        intro f h
        simp only [runFutOps, List.foldl_cons, hfop op f h]
        exact ih f h
  · intro op b b' effs h
    cases op <;>
      · by_cases hd : b.isDone
        · simp [BarOp.apply, Bar.release, Bar.releaseFast, hd] at h
        · simp only [Bool.not_eq_true] at hd
          refine ⟨hd, ?_⟩
          revert h
          cases hc : b.cbs <;>
            simp [BarOp.apply, Bar.release, Bar.releaseFast, hd, hc] <;>
            rintro rfl _ <;> rfl
  · intro ops
    induction ops with
    | nil => intro b h; rfl
    | cons op rest ih =>
        intro b h
        simp only [runBarOps, List.foldl_cons, hbop op b h]
        exact ih b h

/-- Witness for `future_resolved_at_most_once` at concrete cells: a
pending future resolves once, a done future refuses `setResult`, and a
done barrier is unchanged by any release sequence. -/
theorem future_resolved_at_most_once_witness :
    (({} : Fut).isDone = false ∧
      ({ isDone := true, result := some 3 } : Fut).isDone = true) ∧
    (FutOp.apply (.setResult 5) { isDone := true, result := some 3 } = none) ∧
    (runBarOps [.release, .releaseFast] { isDone := true } =
      ({ isDone := true } : Bar)) := by
  refine ⟨?_, ?_, ?_⟩
  · exact future_resolved_at_most_once.1 (.setResult 3) {}
      { isDone := true, result := some 3 } [] rfl
  · exact future_resolved_at_most_once.2.1 (.setResult 5)
      { isDone := true, result := some 3 } rfl
  · exact future_resolved_at_most_once.2.2.2.2.2 [.release, .releaseFast]
      { isDone := true } rfl

/-- **C10.** With `length = -1` (the unbounded configuration), a `put`
made while no consumer is waiting never touches the value buffer and
returns a fresh still-pending barrier; the barrier resolves only when a
later `get` takes the value directly from the producer (the buffer again
untouched): the queue is a rendezvous. -/
theorem queue_unbounded_put_is_rendezvous :
    (∀ (s : QState) (v : Int), s.length = -1 → s.getwaiters = [] →
      s.put v =
        ({ s with putwaiters := s.putwaiters ++ [(s.nextId, v)],
                  nextId := s.nextId + 1 }, .pending s.nextId)) ∧
    (∀ (s : QState) (b : Nat) (pv : Int) (prest : List (Nat × Int)),
      s.length = -1 → s.putwaiters = (b, pv) :: prest →
      s.get = some
        ({ s with nextId := s.nextId + 1,
                  putwaiters := prest,
                  resolvedLog := s.resolvedLog
                    ++ [(b, none), (s.nextId, some pv)] },
         .value s.nextId pv)) := by
  constructor
  · intro s v hlen hget
    have hlt : ¬ s.length > (s.values.length : Int) := by
      rw [hlen]; omega
    simp only [QState.put, hget, if_neg hlt]
  · intro s b pv prest hlen hput
    have hcap : ¬ s.length > 0 := by rw [hlen]; omega
    simp only [QState.get, hput, if_neg hcap]

/-- Witness for `queue_unbounded_put_is_rendezvous`: an unbounded queue
receives a put with no consumer waiting, then a get takes it directly. -/
theorem queue_unbounded_put_is_rendezvous_witness :
    (QState.put (QState.init (-1)) 4 =
      ({ values := [], getwaiters := [], putwaiters := [] ++ [(0, 4)],
         length := -1, nextId := 1, resolvedLog := [] }, .pending 0)) ∧
    (QState.get { values := [], getwaiters := [], putwaiters := [(0, 4)],
                  length := -1, nextId := 1, resolvedLog := [] } = some
      ({ values := [], getwaiters := [], putwaiters := [],
         length := -1, nextId := 2,
         resolvedLog := [] ++ [(0, none), (1, some 4)] },
       .value 1 4)) := by
  refine ⟨?_, ?_⟩
  · exact queue_unbounded_put_is_rendezvous.1 (QState.init (-1)) 4 rfl rfl
  · exact queue_unbounded_put_is_rendezvous.2
      { values := [], getwaiters := [], putwaiters := [(0, 4)],
        length := -1, nextId := 1, resolvedLog := [] }
      0 4 [] rfl rfl

end Unstuck
